import Mathlib

/-!
Verification of the configuration-section locator and codec of the
nzconfigtools repository (Nikon Z camera menu-file tools).

The byte buffer handled by the Python scripts (a `bytearray` / `bytes`
value) is embedded as a `Blob`: a length together with a byte function.
All arithmetic is on `Nat`; Python's float density comparison
`(nonzero / 6628) >= 0.01` is modelled exactly by the integer comparison
`6628 <= 100 * nonzero` (the two sides of the comparison are never closer
than 0.28 / 6628, about 4e-5, while the rounding error of an IEEE double
at that magnitude is below 1e-17, so the float test and the rational test
agree on every possible count).
-/

namespace NZTools

/-- A byte buffer: `size` bytes, `byte i` being the value at index `i`.
Indices at or beyond `size` are never read by the embedded operations
(every read in the source is guarded); the function value there is
irrelevant and left unchanged by every operation. -/
structure Blob where
  size : Nat
  byte : Nat → Nat

/-- Number of non-zero bytes among `byte start, …, byte (start+n-1)`;
embeds `len(section_data) - section_data.count(0)` for the slice
`data[start:start+n]` of an in-bounds window. -/
def countNonzero (b : Blob) (start : Nat) : Nat → Nat
  | 0 => 0
  | n + 1 => countNonzero b start n + (if b.byte (start + n) = 0 then 0 else 1)

/-- `is_valid_config_section(offset)` from `visual_editor.py` (identical
code in `verify_logic.py`): false when `offset + 6628 > len(data)`,
otherwise true iff the non-zero density of the 6628-byte window is at
least 1%. -/
def isValidConfigSection (b : Blob) (off : Nat) : Bool :=
  if b.size < off + 6628 then false
  else decide (6628 ≤ 100 * countNonzero b off 6628)

/-- The `imenu_names` table of `visual_editor.py` (also `smart_dump.py`):
setting id to label, ids 0..80. -/
def imenuNames : List (Nat × String) :=
  [(0, "Active D-Lighting"), (1, "AF area mode"), (2, "AF tracking sensitivity"),
   (3, "Auto bracketing"), (4, "Bluetooth connection"), (5, "Monitor/viewfinder brightness"),
   (6, "Color space"), (7, "Choose image area"), (8, "Custom controls"),
   (9, "Shutter type"), (10, "Electronic front-curtain shutter"), (11, "Exposure compensation"),
   (12, "Exposure delay mode"), (13, "Flash compensation"), (14, "Flash mode"),
   (15, "Focus Mode"), (16, "Focus peaking"), (17, "HDR"), (18, "Highlight-weighted metering"),
   (19, "High ISO NR"), (20, "Image review"), (21, "Image Quality"), (22, "Image Size"),
   (23, "ISO display"), (24, "ISO sensitivity settings"), (25, "Long exposure NR"),
   (26, "Apply settings to live view"), (27, "Metering"), (28, "Matrix metering"),
   (29, "Multiple Exposure"), (30, "Peaking Highlights"), (31, "Set Picture Control"),
   (32, "Release Mode"), (33, "Silent Photography"), (34, "Split-screen display zoom"),
   (35, "Vibration Reduction"), (36, "White Balance"), (37, "White balance fine-tuning"),
   (38, "Wifi connection"), (39, "View memory card info"), (40, "Interval timer shooting"),
   (41, "Time-lapse movie"), (42, "Focus shift shooting"), (43, "Wind noise reduction"),
   (44, "Zebras"), (45, "Movie quality"), (46, "Movie frame size/frame rate"),
   (47, "Movie microphone"), (48, "Movie wind noise reduction"), (49, "HDMI output resolution"),
   (50, "Copyright information"), (51, "Group flash options"), (52, "FV lock"),
   (53, "BKT button assignment"), (54, "Fn1 button assignment"), (55, "Fn2 button assignment"),
   (56, "AF-assist illuminator"), (57, "Beep options"), (58, "Touch controls"),
   (59, "Eye-Detection AF"), (60, "Animal-Detection AF"), (61, "Subject tracking"),
   (62, "Wide-area AF (L)"), (63, "Wide-area AF (S)"), (64, "Auto-area AF"),
   (65, "Pinpoint AF"), (66, "Airplane mode"), (67, "Dynamic-area AF"),
   (68, "3D-tracking"), (69, "Group-area AF"), (70, "Tone mode"),
   (71, "Spot metering"), (72, "Center-weighted metering"), (73, "Flash sync speed"),
   (74, "Flash control mode"), (75, "Wireless flash control"), (76, "Built-in flash mode"),
   (77, "Commander mode"), (78, "Remote flash control"), (79, "TTL flash mode"),
   (80, "Manual flash mode")]

/-- The `mode_names` table: mode id byte to shooting-mode label. -/
def modeNames : List (Nat × String) :=
  [(29, "Program (P)"), (30, "Shutter Priority (S)"), (31, "Aperture Priority (A)"),
   (32, "Manual (M)"), (33, "Auto"), (34, "U1 (User Setting 1)"),
   (35, "U2 (User Setting 2)"), (36, "U3 (User Setting 3)")]

/-- Count of i-menu slots (of the 12) whose low byte is a key of
`imenu_names`; embeds the loop of `score_config_section`, including its
per-slot bounds guard `pos < len(data)`. -/
def validImenuEntries (b : Blob) (off : Nat) : Nat :=
  (List.range 12).countP (fun i =>
    decide (off + 924 + i * 4 < b.size) &&
      ((imenuNames.lookup (b.byte (off + 924 + i * 4))).isSome))

/-- `score_config_section(offset)` from `visual_editor.py`: 0 for an
implausible window, else `density * 50 + valid_imenu_entries * 5`,
computed here in exact rational arithmetic. -/
def scoreConfigSection (b : Blob) (off : Nat) : ℚ :=
  if isValidConfigSection b off then
    (countNonzero b off 6628 : ℚ) / 6628 * 50 + (validImenuEntries b off : ℚ) * 5
  else 0

/-- One round of the inner 8-round loop of `calculate_crc16`:
shift left, conditionally XOR the XMODEM polynomial 0x1021, mask to
16 bits (`crc &= 0xFFFF` runs in every round). -/
def crcRound (c : Nat) : Nat :=
  (if c &&& 32768 ≠ 0 then (c <<< 1) ^^^ 4129 else c <<< 1) &&& 65535

/-- Processing of one input byte by `calculate_crc16`:
`crc ^= byte << 8` followed by eight rounds. -/
def crcByteStep (c x : Nat) : Nat :=
  crcRound^[8] (c ^^^ (x <<< 8))

/-- CRC state after feeding bytes `f i, f (i+1), …, f (i+n-1)` into the
accumulator `c`; `crcFrom f 0 n 0` embeds `calculate_crc16(data[0:n])`. -/
def crcFrom (f : Nat → Nat) : Nat → Nat → Nat → Nat
  | _, 0, c => c
  | i, n + 1, c => crcFrom f (i + 1) n (crcByteStep c (f i))

/-- `update_crc` from `visual_editor.py`: when the buffer holds at least
2 bytes, recompute the CRC over all but the last two bytes and store it
big-endian in the last two bytes; shorter buffers are left untouched. -/
def updateCrc (b : Blob) : Blob :=
  if 2 ≤ b.size then
    { size := b.size
      byte := fun j =>
        if j = b.size - 2 then (crcFrom b.byte 0 (b.size - 2) 0 >>> 8) &&& 255
        else if j = b.size - 1 then crcFrom b.byte 0 (b.size - 2) 0 &&& 255
        else b.byte j }
  else b

/-- `verify_crc`: the stored big-endian trailing 16-bit value equals the
CRC of everything before it.  The source's GUI handler returns without a
verdict for buffers shorter than 2 bytes; per the spec's interface
(`verify` fails, returns false, never throws, if `len(blob) < 2`) that
case is `false` here. -/
def verifyCrc (b : Blob) : Bool :=
  if b.size < 2 then false
  else decide (256 * b.byte (b.size - 2) + b.byte (b.size - 1) =
    crcFrom b.byte 0 (b.size - 2) 0)

/-- `perform_settings_copy(source_offset, target_offset)` from
`visual_editor.py`.  The source window `data[S:S+6628]` is sliced (hence
copied) before any write, so overlapping windows read the pre-state; the
target mode-id byte is captured before the copy and written back after
it, so index `T + 1240` nets to its old value.  Every write carries the
source's bounds guard `target_offset + i < len(data)`. -/
def copySection (b : Blob) (S T : Nat) : Blob :=
  { size := b.size
    byte := fun j =>
      if j = T + 1240 then b.byte (T + 1240)
      else if T ≤ j ∧ j < T + min 6628 (b.size - S) ∧ j < b.size then
        b.byte (S + (j - T))
      else b.byte j }

/-- `perform_settings_reset(target_offset)` from `visual_editor.py`:
capture the mode-id byte, zero the 6628-byte window, write the mode-id
byte back, then write the default prefix bytes `DSC` (68, 83, 67) at
relative offset 1540.  All writes carry the source's bounds guards. -/
def resetSection (b : Blob) (T : Nat) : Blob :=
  { size := b.size
    byte := fun j =>
      if j = T + 1240 then b.byte (T + 1240)
      else if j = T + 1540 ∧ j < b.size then 68
      else if j = T + 1541 ∧ j < b.size then 83
      else if j = T + 1542 ∧ j < b.size then 67
      else if T ≤ j ∧ j < T + 6628 ∧ j < b.size then 0
      else b.byte j }

/-- `apply_imenu_changes` from `visual_editor.py`: for each slot
`i` in 0..11 whose position `offset + 924 + 4*i` is in bounds, store the
chosen setting id (`vals i`) in that single byte.  The three padding
bytes of each 4-byte slot field are not written. -/
def applyImenuChanges (b : Blob) (off : Nat) (vals : Nat → Nat) : Blob :=
  { size := b.size
    byte := fun j =>
      if j < b.size ∧ off + 924 ≤ j ∧ j < off + 924 + 48 ∧ (j - (off + 924)) % 4 = 0
      then vals ((j - (off + 924)) / 4)
      else b.byte j }

/-- Mode-id read of the section codec (`dump_config_section_detailed` in
`smart_dump.py`, guard `mode_offset < len(data)`): the byte at relative
offset 1240. -/
def decodeModeId (b : Blob) (off : Nat) : Option Nat :=
  if off + 1240 < b.size then some (b.byte (off + 1240)) else none

/-- i-menu slot read of the section codec (`load_section_settings` in
`visual_editor.py`): the low byte of the 4-byte field at relative offset
`924 + 4*i`, with the source's guard `pos < len(data)`. -/
def decodeImenuSlot (b : Blob) (off i : Nat) : Option Nat :=
  if off + 924 + i * 4 < b.size then some (b.byte (off + 924 + i * 4)) else none

/-- File-prefix read of the section codec (`load_section_settings` /
`extract_section_settings`): guarded by `prefix_offset + 10 < len(data)`,
take the 10 bytes at relative offset 1540, truncate at the first NUL,
and ASCII-decode; a byte of 128 or more makes the decode fail. -/
def decodePrefixField (b : Blob) (off : Nat) : Option String :=
  if off + 1540 + 10 < b.size then
    let bs := ((List.range 10).map (fun k => b.byte (off + 1540 + k))).takeWhile
      (fun v => v ≠ 0)
    if bs.all (fun v => v < 128) then
      some (String.mk (bs.map Char.ofNat))
    else none
  else none

/-- The Z5 Mark 1 known-offset table of `find_config_sections`. -/
def standardSectionsMk1 : List (Nat × String) :=
  [(169824, "Primary M/A/S/P/Auto"), (176452, "Secondary M/A/S/P/Auto"),
   (183080, "U1"), (189708, "U2"), (196336, "U3")]

/-- The Z5 Mark 2 known-offset table of `find_config_sections` (also in
`verify_logic.py` and `enhanced_dump.py`). -/
def standardSectionsMk2 : List (Nat × String) :=
  [(250612, "M/A/S/P Settings (Main)"), (272312, "M/A/S/P Settings (Backup)"),
   (294012, "U1"), (315712, "U2"), (337412, "U3")]

/-- Expected mode ids per logical slot of the known-offset tables.  The
known-offset probe in the source (`find_config_sections`,
`verify_logic.main`) accepts a table offset on the plausibility check
alone and never compares the mode-id byte against an expected value for
the slot (the mode byte is read only to build a display name), so no
logical slot carries an expectation. -/
def expectedModeIds : String → Option (List Nat) := fun _ => none

/-- The offsets a known-offset probe pass keeps for a given table:
exactly those whose window passes `is_valid_config_section`.  Embeds the
per-table loops of `find_config_sections`. -/
def keptOffsets (b : Blob) (table : List (Nat × String)) : List Nat :=
  (table.map Prod.fst).filter (fun off => isValidConfigSection b off)

/-- The positions `p < n` with `data[p] = m`, in ascending order: the
successive results of the `data.find(bytes([mode_id]), pos)` loop. -/
def matchPositions (b : Blob) (m : Nat) : Nat → List Nat
  | 0 => []
  | n + 1 => matchPositions b m n ++ (if b.byte n = m then [n] else [])

/-- The candidate section starts the heuristic scan records for mode id
`m`: every position `p` with `data[p] = m` (found in ascending order by
`data.find`), shifted by 1240, kept when the shift does not underrun the
buffer and the window is plausible.  Embeds the inner `while` loop of
`auto_detect_sections` (`visual_editor.py`) and
`find_best_config_sections` (`smart_dump.py`). -/
def candidateStarts (b : Blob) (m : Nat) : List Nat :=
  ((matchPositions b m b.size).filter (fun p =>
    decide (1240 ≤ p) && isValidConfigSection b (p - 1240))).map (fun p => p - 1240)

/-- Python's `max(candidates, key=...)` keeps the earliest element of
maximal key: a later candidate replaces the current best only when its
score is strictly greater. -/
def pickBetter (b : Blob) (best c : Nat) : Nat :=
  if scoreConfigSection b best < scoreConfigSection b c then c else best

/-- The single section the heuristic scan reports for mode id `m`: the
best-scoring candidate (ties resolved to the earliest), or `none` when
no candidate was recorded. -/
def bestCandidate (b : Blob) (m : Nat) : Option Nat :=
  match candidateStarts b m with
  | [] => none
  | c :: cs => some (cs.foldl (pickBetter b) c)

/-- The mode ids the heuristic scan probes, in the iteration order of
`mode_patterns` in `auto_detect_sections`. -/
def autoModePatterns : List Nat := [29, 30, 31, 32, 33, 34, 35, 36]

/-- The section starts `auto_detect_sections` reports: the per-mode best
candidates, with no deduplication between modes. -/
def autoDetectStarts (b : Blob) : List Nat :=
  autoModePatterns.filterMap (fun m => bestCandidate b m)

/-- The section starts the locator (`find_config_sections`) returns:
the plausible Mark 2 table offsets if any, else the plausible Mark 1
table offsets, else the heuristic scan's per-mode best candidates. -/
def locateSections (b : Blob) : List Nat :=
  if keptOffsets b standardSectionsMk2 ≠ [] then keptOffsets b standardSectionsMk2
  else if keptOffsets b standardSectionsMk1 ≠ [] then keptOffsets b standardSectionsMk1
  else autoDetectStarts b

/-- The mode ids `auto_detect_dump_file` (`auto_detect_dump.py`) scans,
in its dictionary order. -/
def dumpModePatterns : List Nat := [29, 30, 31, 32, 33]

/-- The proximity filter of `auto_detect_dump_file`: a new candidate
start is admitted only when no already-recorded section start lies
within 100 bytes of it. -/
def farFromAll (acc : List Nat) (s : Nat) : Bool :=
  acc.all (fun t => 100 ≤ Nat.dist t s)

/-- `analyze_potential_section(data, s, m, ...)` reduced to its boolean
verdict: window in bounds, density at least 1%, and the byte at relative
offset 1240 (guarded) equal to the scanned mode id. -/
def analyzeOk (b : Blob) (s m : Nat) : Bool :=
  if b.size < s + 6628 then false
  else if ¬ (6628 ≤ 100 * countNonzero b s 6628) then false
  else decide (s + 1240 < b.size) && decide (b.byte (s + 1240) = m)

/-- One scan position of `auto_detect_dump_file`'s loop for mode id `m`:
when `data[p] = m` and the implied start does not underrun, record the
start if it is at least 100 bytes from every recorded section and the
analysis accepts it. -/
def dumpStep (b : Blob) (m : Nat) (acc : List Nat) (p : Nat) : List Nat :=
  if b.byte p = m ∧ 1240 ≤ p then
    if farFromAll acc (p - 1240) && analyzeOk b (p - 1240) m then
      acc ++ [p - 1240]
    else acc
  else acc

/-- The section starts `auto_detect_dump_file` accumulates: all
positions in ascending order for each mode id in turn, threading the
found-section list through the proximity filter. -/
def autoDetectDumpSections (b : Blob) : List Nat :=
  dumpModePatterns.foldl (fun acc m => (List.range b.size).foldl (dumpStep b m) acc) []

/-- The end-to-end scenario buffer of the spec, literally: 350000 zero
bytes, with mode id 32 at absolute index 250612+1240 = 251852, i-menu
slot 0 = 31 at 250612+924 = 251536, slot 1 = 21 at 251540, and the
prefix bytes of DSC (68, 83, 67) at 250612+1540 = 252152; the trailing
2-byte checksum field stays zero. -/
def scenarioBuf : Blob :=
  { size := 350000
    byte := fun i =>
      if i = 251852 then 32
      else if i = 251536 then 31
      else if i = 251540 then 21
      else if i = 252152 then 68
      else if i = 252153 then 83
      else if i = 252154 then 67
      else 0 }

/-- The scenario buffer additionally given 67 filler bytes of value 1 at
section-relative offsets 2000..2066 (absolute 252612..252678), raising
the window's non-zero count to 73 of 6628, just above the 1% density
threshold. -/
def scenarioBufDense : Blob :=
  { size := 350000
    byte := fun i =>
      if i = 251852 then 32
      else if i = 251536 then 31
      else if i = 251540 then 21
      else if i = 252152 then 68
      else if i = 252153 then 83
      else if i = 252154 then 67
      else if 252612 ≤ i ∧ i < 252679 then 1
      else 0 }

/-- A buffer on which the heuristic scan reports two sections 1 byte
apart: mode byte 29 at index 1240 (section start 0) and mode byte 30 at
index 1241 (section start 1), with 100 filler bytes at 2000..2099 making
both windows plausible. -/
def twinBuf : Blob :=
  { size := 6700
    byte := fun i =>
      if i = 1240 then 29
      else if i = 1241 then 30
      else if 2000 ≤ i ∧ i < 2100 then 1
      else 0 }

/-- A single 6628-byte window holding 67 non-zero bytes: the smallest
count whose fraction 67/6628 (about 1.011%) reaches the 1% threshold. -/
def denseBuf : Blob :=
  { size := 6628, byte := fun i => if i < 67 then 1 else 0 }

/-- A single 6628-byte window holding 33 non-zero bytes: 0.5% of 6628
(33.14) rounded down, fraction about 0.498%, below the threshold. -/
def sparseBuf : Blob :=
  { size := 6628, byte := fun i => if i < 33 then 1 else 0 }

/-- A buffer whose slot-0 padding byte (index 925 for a section at
offset 0) is non-zero, to observe that the i-menu writer leaves padding
bytes alone. -/
def padBuf : Blob :=
  { size := 7000, byte := fun i => if i = 925 then 5 else 0 }

/-- The empty buffer. -/
def emptyBuf : Blob :=
  { size := 0, byte := fun _ => 0 }

/-- A 4-byte buffer. -/
def tinyBuf : Blob :=
  { size := 4, byte := fun i => if i = 0 then 7 else 0 }

/-- A buffer wide enough for two disjoint sections at offsets 0 and
6628. -/
def wideBuf : Blob :=
  { size := 13256, byte := fun _ => 1 }

theorem countNonzero_add (b : Blob) (start n : Nat) :
    ∀ m, countNonzero b start (n + m) =
      countNonzero b start n + countNonzero b (start + n) m := by
  intro m
  induction m with
  | zero => rfl
  | succ m ih =>
    rw [Nat.add_succ]
    simp only [countNonzero]
    rw [ih, show start + n + m = start + (n + m) from by omega]
    omega

theorem countNonzero_eq_zero (b : Blob) (start : Nat) :
    ∀ n, (∀ j, start ≤ j → j < start + n → b.byte j = 0) →
      countNonzero b start n = 0 := by
  intro n
  induction n with
  | zero => intro _; rfl
  | succ n ih =>
    intro h
    simp only [countNonzero]
    rw [if_pos (h (start + n) (by omega) (by omega)),
      ih (fun j h1 h2 => h j h1 (by omega))]

theorem countNonzero_eq_length (b : Blob) (start : Nat) :
    ∀ n, (∀ j, start ≤ j → j < start + n → b.byte j ≠ 0) →
      countNonzero b start n = n := by
  intro n
  induction n with
  | zero => intro _; rfl
  | succ n ih =>
    intro h
    simp only [countNonzero]
    rw [if_neg (h (start + n) (by omega) (by omega)),
      ih (fun j h1 h2 => h j h1 (by omega))]

theorem matchPositions_of_no_match (b : Blob) (m n : Nat) :
    ∀ k, (∀ j, n ≤ j → j < n + k → b.byte j ≠ m) →
      matchPositions b m (n + k) = matchPositions b m n := by
  intro k
  induction k with
  | zero => intro _; rfl
  | succ k ih =>
    intro h
    rw [Nat.add_succ]
    simp only [matchPositions]
    rw [if_neg (h (n + k) (by omega) (by omega)),
      ih (fun j h1 h2 => h j h1 (by omega))]
    simp

theorem matchPositions_nil (b : Blob) (m : Nat) :
    ∀ n, (∀ j, j < n → b.byte j ≠ m) → matchPositions b m n = [] := by
  intro n
  induction n with
  | zero => intro _; rfl
  | succ n ih =>
    intro h
    simp only [matchPositions]
    rw [if_neg (h n (by omega)), ih (fun j h1 => h j (by omega))]
    simp

theorem mem_matchPositions (b : Blob) (m : Nat) :
    ∀ n p, p ∈ matchPositions b m n ↔ (p < n ∧ b.byte p = m) := by
  intro n
  induction n with
  | zero => intro p; simp [matchPositions]
  | succ n ih =>
    intro p
    simp only [matchPositions, List.mem_append]
    rw [ih]
    by_cases h : b.byte n = m
    · rw [if_pos h]
      simp only [List.mem_singleton]
      constructor
      · rintro (⟨h1, h2⟩ | rfl)
        · exact ⟨by omega, h2⟩
        · exact ⟨by omega, h⟩
      · rintro ⟨h1, h2⟩
        by_cases hp : p = n
        · right; exact hp
        · left; exact ⟨by omega, h2⟩
    · rw [if_neg h]
      simp only [List.not_mem_nil, or_false]
      constructor
      · rintro ⟨h1, h2⟩
        exact ⟨by omega, h2⟩
      · rintro ⟨h1, h2⟩
        have hp : p ≠ n := fun e => h (e ▸ h2)
        exact ⟨by omega, h2⟩

theorem matchPositions_succ (b : Blob) (m n : Nat) :
    matchPositions b m (n + 1) =
      matchPositions b m n ++ (if b.byte n = m then [n] else []) := rfl

attribute [irreducible] countNonzero matchPositions

theorem countNonzero_concat (b : Blob) (s n n1 n2 s2 : Nat)
    (hn : n = n1 + n2) (hs : s2 = s + n1) :
    countNonzero b s n = countNonzero b s n1 + countNonzero b s2 n2 := by
  subst hn hs
  exact countNonzero_add b s n1 n2

theorem scenarioBuf_byte_zero (j : Nat) (h : j ≠ 251852 ∧ j ≠ 251536 ∧ j ≠ 251540 ∧
    j ≠ 252152 ∧ j ≠ 252153 ∧ j ≠ 252154) : scenarioBuf.byte j = 0 := by
  simp only [scenarioBuf]
  repeat' split
  all_goals omega

theorem scenarioBuf_count : countNonzero scenarioBuf 250612 6628 = 6 := by
  have z1 : countNonzero scenarioBuf 250612 924 = 0 :=
    countNonzero_eq_zero _ _ _ (fun j h1 h2 => scenarioBuf_byte_zero j (by omega))
  have o1 : countNonzero scenarioBuf 251536 1 = 1 := by
    apply countNonzero_eq_length
    intro j h1 h2
    have hj : j = 251536 := by omega
    subst hj; decide
  have z2 : countNonzero scenarioBuf 251537 3 = 0 :=
    countNonzero_eq_zero _ _ _ (fun j h1 h2 => scenarioBuf_byte_zero j (by omega))
  have o2 : countNonzero scenarioBuf 251540 1 = 1 := by
    apply countNonzero_eq_length
    intro j h1 h2
    have hj : j = 251540 := by omega
    subst hj; decide
  have z3 : countNonzero scenarioBuf 251541 311 = 0 :=
    countNonzero_eq_zero _ _ _ (fun j h1 h2 => scenarioBuf_byte_zero j (by omega))
  have o3 : countNonzero scenarioBuf 251852 1 = 1 := by
    apply countNonzero_eq_length
    intro j h1 h2
    have hj : j = 251852 := by omega
    subst hj; decide
  have z4 : countNonzero scenarioBuf 251853 299 = 0 :=
    countNonzero_eq_zero _ _ _ (fun j h1 h2 => scenarioBuf_byte_zero j (by omega))
  have o4 : countNonzero scenarioBuf 252152 3 = 3 := by
    apply countNonzero_eq_length
    intro j h1 h2
    interval_cases j <;> decide
  have z5 : countNonzero scenarioBuf 252155 5085 = 0 :=
    countNonzero_eq_zero _ _ _ (fun j h1 h2 => scenarioBuf_byte_zero j (by omega))
  rw [countNonzero_concat scenarioBuf 250612 6628 924 5704 251536 (by norm_num) (by norm_num),
    countNonzero_concat scenarioBuf 251536 5704 1 5703 251537 (by norm_num) (by norm_num),
    countNonzero_concat scenarioBuf 251537 5703 3 5700 251540 (by norm_num) (by norm_num),
    countNonzero_concat scenarioBuf 251540 5700 1 5699 251541 (by norm_num) (by norm_num),
    countNonzero_concat scenarioBuf 251541 5699 311 5388 251852 (by norm_num) (by norm_num),
    countNonzero_concat scenarioBuf 251852 5388 1 5387 251853 (by norm_num) (by norm_num),
    countNonzero_concat scenarioBuf 251853 5387 299 5088 252152 (by norm_num) (by norm_num),
    countNonzero_concat scenarioBuf 252152 5088 3 5085 252155 (by norm_num) (by norm_num),
    z1, o1, z2, o2, z3, o3, z4, o4, z5]

theorem scenarioBuf_valid_probe : isValidConfigSection scenarioBuf 250612 = false := by
  simp only [isValidConfigSection]
  rw [if_neg (by decide), scenarioBuf_count]
  decide

theorem scenarioBuf_score : scoreConfigSection scenarioBuf 250612 = 0 := by
  simp only [scoreConfigSection]
  rw [scenarioBuf_valid_probe]
  simp

theorem scenarioBuf_kept_none :
    keptOffsets scenarioBuf standardSectionsMk2 = [] := by
  have z : ∀ s, 252155 ≤ s → s + 6628 ≤ 350000 →
      countNonzero scenarioBuf s 6628 = 0 := fun s h1 h2 =>
    countNonzero_eq_zero _ _ _ (fun j hj1 hj2 => scenarioBuf_byte_zero j (by omega))
  have hv : ∀ s, 252155 ≤ s → s + 6628 ≤ 350000 →
      isValidConfigSection scenarioBuf s = false := by
    intro s h1 h2
    simp only [isValidConfigSection]
    rw [if_neg (by simp only [scenarioBuf]; omega), z s h1 h2]
    decide
  simp only [keptOffsets, standardSectionsMk2, List.map_cons, List.map_nil]
  rw [List.filter_cons, List.filter_cons, List.filter_cons, List.filter_cons,
    List.filter_cons]
  rw [scenarioBuf_valid_probe, hv 272312 (by norm_num) (by norm_num),
    hv 294012 (by norm_num) (by norm_num), hv 315712 (by norm_num) (by norm_num),
    hv 337412 (by norm_num) (by norm_num)]
  rfl

theorem scenarioBufDense_byte_zero (j : Nat) (h : j ≠ 251852 ∧ j ≠ 251536 ∧
    j ≠ 251540 ∧ j ≠ 252152 ∧ j ≠ 252153 ∧ j ≠ 252154 ∧
    ¬ (252612 ≤ j ∧ j < 252679)) : scenarioBufDense.byte j = 0 := by
  simp only [scenarioBufDense]
  repeat' split
  all_goals omega

theorem scenarioBufDense_count : countNonzero scenarioBufDense 250612 6628 = 73 := by
  have nz : ∀ s n, (∀ j, s ≤ j → j < s + n → scenarioBufDense.byte j ≠ 0) →
      countNonzero scenarioBufDense s n = n := countNonzero_eq_length _
  have z1 : countNonzero scenarioBufDense 250612 924 = 0 :=
    countNonzero_eq_zero _ _ _ (fun j h1 h2 => scenarioBufDense_byte_zero j (by omega))
  have o1 : countNonzero scenarioBufDense 251536 1 = 1 := by
    apply nz
    intro j h1 h2
    simp only [scenarioBufDense]
    repeat' split
    all_goals omega
  have z2 : countNonzero scenarioBufDense 251537 3 = 0 :=
    countNonzero_eq_zero _ _ _ (fun j h1 h2 => scenarioBufDense_byte_zero j (by omega))
  have o2 : countNonzero scenarioBufDense 251540 1 = 1 := by
    apply nz
    intro j h1 h2
    simp only [scenarioBufDense]
    repeat' split
    all_goals omega
  have z3 : countNonzero scenarioBufDense 251541 311 = 0 :=
    countNonzero_eq_zero _ _ _ (fun j h1 h2 => scenarioBufDense_byte_zero j (by omega))
  have o3 : countNonzero scenarioBufDense 251852 1 = 1 := by
    apply nz
    intro j h1 h2
    simp only [scenarioBufDense]
    repeat' split
    all_goals omega
  have z4 : countNonzero scenarioBufDense 251853 299 = 0 :=
    countNonzero_eq_zero _ _ _ (fun j h1 h2 => scenarioBufDense_byte_zero j (by omega))
  have o4 : countNonzero scenarioBufDense 252152 3 = 3 := by
    apply nz
    intro j h1 h2
    simp only [scenarioBufDense]
    repeat' split
    all_goals omega
  have z5 : countNonzero scenarioBufDense 252155 457 = 0 :=
    countNonzero_eq_zero _ _ _ (fun j h1 h2 => scenarioBufDense_byte_zero j (by omega))
  have o5 : countNonzero scenarioBufDense 252612 67 = 67 := by
    apply nz
    intro j h1 h2
    simp only [scenarioBufDense]
    repeat' split
    all_goals omega
  have z6 : countNonzero scenarioBufDense 252679 4561 = 0 :=
    countNonzero_eq_zero _ _ _ (fun j h1 h2 => scenarioBufDense_byte_zero j (by omega))
  rw [countNonzero_concat scenarioBufDense 250612 6628 924 5704 251536 (by norm_num) (by norm_num),
    countNonzero_concat scenarioBufDense 251536 5704 1 5703 251537 (by norm_num) (by norm_num),
    countNonzero_concat scenarioBufDense 251537 5703 3 5700 251540 (by norm_num) (by norm_num),
    countNonzero_concat scenarioBufDense 251540 5700 1 5699 251541 (by norm_num) (by norm_num),
    countNonzero_concat scenarioBufDense 251541 5699 311 5388 251852 (by norm_num) (by norm_num),
    countNonzero_concat scenarioBufDense 251852 5388 1 5387 251853 (by norm_num) (by norm_num),
    countNonzero_concat scenarioBufDense 251853 5387 299 5088 252152 (by norm_num) (by norm_num),
    countNonzero_concat scenarioBufDense 252152 5088 3 5085 252155 (by norm_num) (by norm_num),
    countNonzero_concat scenarioBufDense 252155 5085 457 4628 252612 (by norm_num) (by norm_num),
    countNonzero_concat scenarioBufDense 252612 4628 67 4561 252679 (by norm_num) (by norm_num),
    z1, o1, z2, o2, z3, o3, z4, o4, z5, o5, z6]

theorem scenarioBufDense_valid : isValidConfigSection scenarioBufDense 250612 = true := by
  simp only [isValidConfigSection]
  rw [if_neg (by decide), scenarioBufDense_count]
  decide

theorem scenarioBufDense_kept :
    keptOffsets scenarioBufDense standardSectionsMk2 = [250612] := by
  have z : ∀ s, 252679 ≤ s → s + 6628 ≤ 350000 →
      countNonzero scenarioBufDense s 6628 = 0 := fun s h1 h2 =>
    countNonzero_eq_zero _ _ _ (fun j hj1 hj2 => scenarioBufDense_byte_zero j (by omega))
  have hv : ∀ s, 252679 ≤ s → s + 6628 ≤ 350000 →
      isValidConfigSection scenarioBufDense s = false := by
    intro s h1 h2
    simp only [isValidConfigSection]
    rw [if_neg (by simp only [scenarioBufDense]; omega), z s h1 h2]
    decide
  simp only [keptOffsets, standardSectionsMk2, List.map_cons, List.map_nil]
  rw [List.filter_cons, List.filter_cons, List.filter_cons, List.filter_cons,
    List.filter_cons]
  rw [scenarioBufDense_valid, hv 272312 (by norm_num) (by norm_num),
    hv 294012 (by norm_num) (by norm_num), hv 315712 (by norm_num) (by norm_num),
    hv 337412 (by norm_num) (by norm_num)]
  rfl

theorem twinBuf_byte_zero (j : Nat) (h : j ≠ 1240 ∧ j ≠ 1241 ∧
    ¬ (2000 ≤ j ∧ j < 2100)) : twinBuf.byte j = 0 := by
  simp only [twinBuf]
  repeat' split
  all_goals omega

theorem twinBuf_count0 : countNonzero twinBuf 0 6628 = 102 := by
  have z1 : countNonzero twinBuf 0 1240 = 0 :=
    countNonzero_eq_zero _ _ _ (fun j h1 h2 => twinBuf_byte_zero j (by omega))
  have o1 : countNonzero twinBuf 1240 2 = 2 := by
    apply countNonzero_eq_length
    intro j h1 h2
    simp only [twinBuf]
    repeat' split
    all_goals omega
  have z2 : countNonzero twinBuf 1242 758 = 0 :=
    countNonzero_eq_zero _ _ _ (fun j h1 h2 => twinBuf_byte_zero j (by omega))
  have o2 : countNonzero twinBuf 2000 100 = 100 := by
    apply countNonzero_eq_length
    intro j h1 h2
    simp only [twinBuf]
    repeat' split
    all_goals omega
  have z3 : countNonzero twinBuf 2100 4528 = 0 :=
    countNonzero_eq_zero _ _ _ (fun j h1 h2 => twinBuf_byte_zero j (by omega))
  rw [countNonzero_concat twinBuf 0 6628 1240 5388 1240 (by norm_num) (by norm_num),
    countNonzero_concat twinBuf 1240 5388 2 5386 1242 (by norm_num) (by norm_num),
    countNonzero_concat twinBuf 1242 5386 758 4628 2000 (by norm_num) (by norm_num),
    countNonzero_concat twinBuf 2000 4628 100 4528 2100 (by norm_num) (by norm_num),
    z1, o1, z2, o2, z3]

theorem twinBuf_count1 : countNonzero twinBuf 1 6628 = 102 := by
  have z1 : countNonzero twinBuf 1 1239 = 0 :=
    countNonzero_eq_zero _ _ _ (fun j h1 h2 => twinBuf_byte_zero j (by omega))
  have o1 : countNonzero twinBuf 1240 2 = 2 := by
    apply countNonzero_eq_length
    intro j h1 h2
    simp only [twinBuf]
    repeat' split
    all_goals omega
  have z2 : countNonzero twinBuf 1242 758 = 0 :=
    countNonzero_eq_zero _ _ _ (fun j h1 h2 => twinBuf_byte_zero j (by omega))
  have o2 : countNonzero twinBuf 2000 100 = 100 := by
    apply countNonzero_eq_length
    intro j h1 h2
    simp only [twinBuf]
    repeat' split
    all_goals omega
  have z3 : countNonzero twinBuf 2100 4529 = 0 :=
    countNonzero_eq_zero _ _ _ (fun j h1 h2 => twinBuf_byte_zero j (by omega))
  rw [countNonzero_concat twinBuf 1 6628 1239 5389 1240 (by norm_num) (by norm_num),
    countNonzero_concat twinBuf 1240 5389 2 5387 1242 (by norm_num) (by norm_num),
    countNonzero_concat twinBuf 1242 5387 758 4629 2000 (by norm_num) (by norm_num),
    countNonzero_concat twinBuf 2000 4629 100 4529 2100 (by norm_num) (by norm_num),
    z1, o1, z2, o2, z3]

theorem twinBuf_valid0 : isValidConfigSection twinBuf 0 = true := by
  simp only [isValidConfigSection]
  rw [if_neg (by decide), twinBuf_count0]
  decide

theorem twinBuf_valid1 : isValidConfigSection twinBuf 1 = true := by
  simp only [isValidConfigSection]
  rw [if_neg (by decide), twinBuf_count1]
  decide

theorem twinBuf_mp29 : matchPositions twinBuf 29 6700 = [1240] := by
  have h1 : matchPositions twinBuf 29 6700 = matchPositions twinBuf 29 1241 := by
    rw [show (6700 : Nat) = 1241 + 5459 from by norm_num]
    apply matchPositions_of_no_match
    intro j hj1 hj2
    simp only [twinBuf]
    repeat' split
    all_goals omega
  rw [h1, show (1241 : Nat) = 1240 + 1 from by norm_num, matchPositions_succ,
    matchPositions_nil twinBuf 29 1240 (by
      intro j hj
      simp only [twinBuf]
      repeat' split
      all_goals omega),
    if_pos (by decide)]
  rfl

theorem twinBuf_mp30 : matchPositions twinBuf 30 6700 = [1241] := by
  have h1 : matchPositions twinBuf 30 6700 = matchPositions twinBuf 30 1242 := by
    rw [show (6700 : Nat) = 1242 + 5458 from by norm_num]
    apply matchPositions_of_no_match
    intro j hj1 hj2
    simp only [twinBuf]
    repeat' split
    all_goals omega
  rw [h1, show (1242 : Nat) = 1241 + 1 from by norm_num, matchPositions_succ,
    matchPositions_nil twinBuf 30 1241 (by
      intro j hj
      simp only [twinBuf]
      repeat' split
      all_goals omega),
    if_pos (by decide)]
  rfl

theorem twinBuf_mp_none (m : Nat) (h1 : 31 ≤ m) (h2 : m ≤ 36) :
    matchPositions twinBuf m 6700 = [] := by
  apply matchPositions_nil
  intro j hj
  simp only [twinBuf]
  repeat' split
  all_goals omega

theorem twinBuf_cand29 : candidateStarts twinBuf 29 = [0] := by
  show ((matchPositions twinBuf 29 6700).filter _).map _ = [0]
  rw [twinBuf_mp29]
  simp [twinBuf_valid0]

theorem twinBuf_cand30 : candidateStarts twinBuf 30 = [1] := by
  show ((matchPositions twinBuf 30 6700).filter _).map _ = [1]
  rw [twinBuf_mp30]
  simp [twinBuf_valid1]

theorem twinBuf_best29 : bestCandidate twinBuf 29 = some 0 := by
  rw [bestCandidate, twinBuf_cand29]
  rfl

theorem twinBuf_best30 : bestCandidate twinBuf 30 = some 1 := by
  rw [bestCandidate, twinBuf_cand30]
  rfl

theorem twinBuf_best_none (m : Nat) (h1 : 31 ≤ m) (h2 : m ≤ 36) :
    bestCandidate twinBuf m = none := by
  have hc : candidateStarts twinBuf m = [] := by
    show ((matchPositions twinBuf m 6700).filter _).map _ = []
    rw [twinBuf_mp_none m h1 h2]
    rfl
  rw [bestCandidate, hc]

theorem twinBuf_autoDetect : autoDetectStarts twinBuf = [0, 1] := by
  have h29 : (fun m => bestCandidate twinBuf m) 29 = some 0 := twinBuf_best29
  have h30 : (fun m => bestCandidate twinBuf m) 30 = some 1 := twinBuf_best30
  have hn : ∀ m, 31 ≤ m → m ≤ 36 → (fun m => bestCandidate twinBuf m) m = none :=
    fun m a1 a2 => twinBuf_best_none m a1 a2
  show List.filterMap (fun m => bestCandidate twinBuf m) [29, 30, 31, 32, 33, 34, 35, 36] = [0, 1]
  calc List.filterMap (fun m => bestCandidate twinBuf m) [29, 30, 31, 32, 33, 34, 35, 36]
      = 0 :: List.filterMap (fun m => bestCandidate twinBuf m) [30, 31, 32, 33, 34, 35, 36] :=
        List.filterMap_cons_some h29
    _ = 0 :: 1 :: List.filterMap (fun m => bestCandidate twinBuf m) [31, 32, 33, 34, 35, 36] :=
        congrArg (fun t => 0 :: t) (List.filterMap_cons_some h30)
    _ = 0 :: 1 :: List.filterMap (fun m => bestCandidate twinBuf m) [32, 33, 34, 35, 36] :=
        congrArg (fun t => 0 :: 1 :: t) (List.filterMap_cons_none (hn 31 (by norm_num) (by norm_num)))
    _ = 0 :: 1 :: List.filterMap (fun m => bestCandidate twinBuf m) [33, 34, 35, 36] :=
        congrArg (fun t => 0 :: 1 :: t) (List.filterMap_cons_none (hn 32 (by norm_num) (by norm_num)))
    _ = 0 :: 1 :: List.filterMap (fun m => bestCandidate twinBuf m) [34, 35, 36] :=
        congrArg (fun t => 0 :: 1 :: t) (List.filterMap_cons_none (hn 33 (by norm_num) (by norm_num)))
    _ = 0 :: 1 :: List.filterMap (fun m => bestCandidate twinBuf m) [35, 36] :=
        congrArg (fun t => 0 :: 1 :: t) (List.filterMap_cons_none (hn 34 (by norm_num) (by norm_num)))
    _ = 0 :: 1 :: List.filterMap (fun m => bestCandidate twinBuf m) [36] :=
        congrArg (fun t => 0 :: 1 :: t) (List.filterMap_cons_none (hn 35 (by norm_num) (by norm_num)))
    _ = 0 :: 1 :: List.filterMap (fun m => bestCandidate twinBuf m) [] :=
        congrArg (fun t => 0 :: 1 :: t) (List.filterMap_cons_none (hn 36 (by norm_num) (by norm_num)))
    _ = [0, 1] := congrArg (fun t => 0 :: 1 :: t) (List.filterMap_nil _)

theorem denseBuf_count : countNonzero denseBuf 0 6628 = 67 := by
  have o1 : countNonzero denseBuf 0 67 = 67 := by
    apply countNonzero_eq_length
    intro j h1 h2
    simp only [denseBuf]
    repeat' split
    all_goals omega
  have z1 : countNonzero denseBuf 67 6561 = 0 := by
    apply countNonzero_eq_zero
    intro j h1 h2
    simp only [denseBuf]
    repeat' split
    all_goals omega
  rw [countNonzero_concat denseBuf 0 6628 67 6561 67 (by norm_num) (by norm_num),
    o1, z1]

theorem sparseBuf_count : countNonzero sparseBuf 0 6628 = 33 := by
  have o1 : countNonzero sparseBuf 0 33 = 33 := by
    apply countNonzero_eq_length
    intro j h1 h2
    simp only [sparseBuf]
    repeat' split
    all_goals omega
  have z1 : countNonzero sparseBuf 33 6595 = 0 := by
    apply countNonzero_eq_zero
    intro j h1 h2
    simp only [sparseBuf]
    repeat' split
    all_goals omega
  rw [countNonzero_concat sparseBuf 0 6628 33 6595 33 (by norm_num) (by norm_num),
    o1, z1]

theorem mem_candidateStarts (b : Blob) (m s : Nat) :
    s ∈ candidateStarts b m ↔
      ∃ p, p < b.size ∧ b.byte p = m ∧ 1240 ≤ p ∧ s = p - 1240 ∧
        isValidConfigSection b (p - 1240) = true := by
  constructor
  · intro hs
    obtain ⟨p, hpfil, hmap⟩ := List.mem_map.mp hs
    obtain ⟨hpmem, hq⟩ := List.mem_filter.mp hpfil
    obtain ⟨hplt, hbyte⟩ := (mem_matchPositions b m b.size p).mp hpmem
    rw [Bool.and_eq_true, decide_eq_true_eq] at hq
    exact ⟨p, hplt, hbyte, hq.1, hmap.symm, hq.2⟩
  · rintro ⟨p, hp, hbyte, h1240, hs, hval⟩
    apply List.mem_map.mpr
    refine ⟨p, List.mem_filter.mpr ⟨?_, ?_⟩, hs.symm⟩
    · exact (mem_matchPositions b m b.size p).mpr ⟨hp, hbyte⟩
    · rw [Bool.and_eq_true]
      exact ⟨decide_eq_true h1240, hval⟩

theorem score_le_pickBetter_left (b : Blob) (c d : Nat) :
    scoreConfigSection b c ≤ scoreConfigSection b (pickBetter b c d) := by
  unfold pickBetter
  split
  · rename_i h
    exact le_of_lt h
  · exact le_refl _

theorem score_le_pickBetter_right (b : Blob) (c d : Nat) :
    scoreConfigSection b d ≤ scoreConfigSection b (pickBetter b c d) := by
  unfold pickBetter
  split
  · exact le_refl _
  · rename_i h
    exact le_of_not_lt h

theorem pickBetter_eq_or (b : Blob) (c d : Nat) :
    pickBetter b c d = c ∨ pickBetter b c d = d := by
  unfold pickBetter
  split
  · exact Or.inr rfl
  · exact Or.inl rfl

theorem foldl_pickBetter_mem (b : Blob) :
    ∀ (cs : List Nat) (c : Nat), cs.foldl (pickBetter b) c ∈ c :: cs := by
  intro cs
  induction cs with
  | nil => intro c; simp
  | cons d ds ih =>
    intro c
    simp only [List.foldl_cons]
    rcases List.mem_cons.mp (ih (pickBetter b c d)) with h | h
    · rcases pickBetter_eq_or b c d with h2 | h2
      · rw [h, h2]; simp
      · rw [h, h2]; simp
    · simp [List.mem_cons.mpr (Or.inr h)]

theorem foldl_pickBetter_le (b : Blob) :
    ∀ (cs : List Nat) (c t : Nat), t ∈ c :: cs →
      scoreConfigSection b t ≤ scoreConfigSection b (cs.foldl (pickBetter b) c) := by
  intro cs
  induction cs with
  | nil =>
    intro c t ht
    rw [List.mem_singleton] at ht
    subst ht
    exact le_refl _
  | cons d ds ih =>
    intro c t ht
    simp only [List.foldl_cons]
    rcases List.mem_cons.mp ht with rfl | ht2
    · exact le_trans (score_le_pickBetter_left b t d) (ih _ _ (List.mem_cons_self _ _))
    · rcases List.mem_cons.mp ht2 with rfl | ht3
      · exact le_trans (score_le_pickBetter_right b c t) (ih _ _ (List.mem_cons_self _ _))
      · exact ih _ _ (List.mem_cons.mpr (Or.inr ht3))

theorem bestCandidate_mem (b : Blob) (m s : Nat) (h : bestCandidate b m = some s) :
    s ∈ candidateStarts b m := by
  unfold bestCandidate at h
  revert h
  cases hc : candidateStarts b m with
  | nil => intro h; cases h
  | cons c cs =>
    intro h
    have hs : s = cs.foldl (pickBetter b) c := by
      injection h with h2
      exact h2.symm
    rw [hs]
    exact foldl_pickBetter_mem b cs c

theorem bestCandidate_max (b : Blob) (m s : Nat) (h : bestCandidate b m = some s) :
    ∀ t ∈ candidateStarts b m, scoreConfigSection b t ≤ scoreConfigSection b s := by
  unfold bestCandidate at h
  revert h
  cases hc : candidateStarts b m with
  | nil => intro h; cases h
  | cons c cs =>
    intro h t ht
    have hs : s = cs.foldl (pickBetter b) c := by
      injection h with h2
      exact h2.symm
    rw [hs]
    exact foldl_pickBetter_le b cs c t (hc ▸ ht)

theorem dumpStep_pairwise (b : Blob) (m : Nat) (acc : List Nat) (p : Nat)
    (h : acc.Pairwise (fun s t => 100 ≤ Nat.dist s t)) :
    (dumpStep b m acc p).Pairwise (fun s t => 100 ≤ Nat.dist s t) := by
  rw [dumpStep]
  generalize p - 1240 = s0
  by_cases h1 : b.byte p = m ∧ 1240 ≤ p
  · rw [if_pos h1]
    by_cases h2 : (farFromAll acc s0 && analyzeOk b s0 m) = true
    · rw [if_pos h2]
      rw [Bool.and_eq_true] at h2
      have hfar := h2.1
      rw [farFromAll, List.all_eq_true] at hfar
      rw [List.pairwise_append]
      refine ⟨h, List.pairwise_singleton _ _, ?_⟩
      intro a ha a2 ha2
      rw [List.mem_singleton] at ha2
      subst ha2
      have hd := hfar a ha
      rw [decide_eq_true_eq] at hd
      exact hd
    · rw [if_neg h2]
      exact h
  · rw [if_neg h1]
    exact h

theorem foldl_dumpStep_pairwise (b : Blob) (m : Nat) :
    ∀ (l : List Nat) (acc : List Nat),
      acc.Pairwise (fun s t => 100 ≤ Nat.dist s t) →
      (l.foldl (dumpStep b m) acc).Pairwise (fun s t => 100 ≤ Nat.dist s t) := by
  intro l
  induction l with
  | nil => intro acc h; exact h
  | cons p ps ih =>
    intro acc h
    exact ih _ (dumpStep_pairwise b m acc p h)

theorem autoDetectDumpSections_pairwise (b : Blob) :
    (autoDetectDumpSections b).Pairwise (fun s t => 100 ≤ Nat.dist s t) := by
  unfold autoDetectDumpSections
  generalize dumpModePatterns = ms
  have h : ∀ (ms : List Nat) (acc : List Nat),
      acc.Pairwise (fun s t => 100 ≤ Nat.dist s t) →
      (ms.foldl (fun acc m => (List.range b.size).foldl (dumpStep b m) acc) acc).Pairwise
        (fun s t => 100 ≤ Nat.dist s t) := by
    intro ms
    induction ms with
    | nil => intro acc h; exact h
    | cons m mrest ih =>
      intro acc h
      exact ih _ (foldl_dumpStep_pairwise b m _ acc h)
  exact h ms [] (List.Pairwise.nil)

theorem crcRound_lt (c : Nat) : crcRound c < 65536 :=
  Nat.lt_succ_of_le Nat.and_le_right

theorem crcByteStep_lt (c x : Nat) : crcByteStep c x < 65536 := by
  unfold crcByteStep
  rw [show (8 : Nat) = 7 + 1 from rfl, Function.iterate_succ_apply']
  exact crcRound_lt _

theorem crcFrom_lt (f : Nat → Nat) (n : Nat) :
    ∀ i c, c < 65536 → crcFrom f i n c < 65536 := by
  induction n with
  | zero => intro i c h; exact h
  | succ n ih => intro i c _; exact ih (i + 1) _ (crcByteStep_lt _ _)

theorem crcFrom_congr (f g : Nat → Nat) (n : Nat) :
    ∀ i c, (∀ j, i ≤ j → j < i + n → f j = g j) →
    crcFrom f i n c = crcFrom g i n c := by
  induction n with
  | zero => intro i c _; rfl
  | succ n ih =>
    intro i c h
    unfold crcFrom
    rw [h i (Nat.le_refl i) (by omega)]
    exact ih (i + 1) _ (fun j h1 h2 => h j (by omega) (by omega))

/-- Re-establishing the checksum invariant: after `update_crc`, the
stored trailing bytes match the recomputed CRC, so `verify_crc`
succeeds.  This needs no range assumption on the byte values because
every CRC round ends with a 16-bit mask. -/
theorem verifyCrc_updateCrc (b : Blob) (h : 2 ≤ b.size) :
    verifyCrc (updateCrc b) = true := by
  have hcrc : crcFrom b.byte 0 (b.size - 2) 0 < 65536 :=
    crcFrom_lt _ _ _ _ (by norm_num)
  set crc := crcFrom b.byte 0 (b.size - 2) 0 with hcrcdef
  have hne : b.size - 1 ≠ b.size - 2 := by omega
  have hbytes : ∀ j, j < b.size - 2 → (updateCrc b).byte j = b.byte j := by
    intro j hj
    simp only [updateCrc, if_pos h]
    rw [if_neg (by omega), if_neg (by omega)]
  have hsize : (updateCrc b).size = b.size := by
    simp only [updateCrc, if_pos h]
  have hhi : (updateCrc b).byte (b.size - 2) = (crc >>> 8) &&& 255 := by
    simp only [updateCrc, if_pos h]
    simp
  have hlo : (updateCrc b).byte (b.size - 1) = crc &&& 255 := by
    simp only [updateCrc, if_pos h]
    rw [if_neg hne]
    simp
  have hsame : crcFrom (updateCrc b).byte 0 (b.size - 2) 0 = crc := by
    rw [hcrcdef]
    exact crcFrom_congr _ _ _ _ _ (fun j h1 h2 => hbytes j (by omega))
  have h255 : (255 : Nat) = 2 ^ 8 - 1 := by norm_num
  have hdiv : crc / 256 < 256 := by omega
  have hhi2 : (crc >>> 8) &&& 255 = crc / 256 := by
    rw [Nat.shiftRight_eq_div_pow, h255,
      Nat.and_pow_two_sub_one_of_lt_two_pow (by norm_num at hdiv ⊢; omega)]
  have hlo2 : crc &&& 255 = crc % 256 := by
    rw [h255, Nat.and_pow_two_sub_one_eq_mod]
  simp only [verifyCrc, hsize, hhi, hlo, hsame, hhi2, hlo2]
  rw [if_neg (by omega)]
  simp [Nat.div_add_mod]

/-- C7: for every blob and every pair of in-bounds section windows at
`S` (source) and `T` (target), `perform_settings_copy` gives the target
window the source window's bytes at every relative offset other than
1240, and the mode-id byte at `T + 1240` keeps its pre-copy value. -/
theorem c7_copy_section (b : Blob) (S T : Nat)
    (hS : S + 6628 ≤ b.size) (hT : T + 6628 ≤ b.size) :
    (∀ i, i < 6628 → i ≠ 1240 →
      (copySection b S T).byte (T + i) = b.byte (S + i)) ∧
    (copySection b S T).byte (T + 1240) = b.byte (T + 1240) := by
  have hmin : min 6628 (b.size - S) = 6628 := Nat.min_eq_left (by omega)
  constructor
  · intro i hi hne
    simp only [copySection]
    rw [if_neg (by omega), hmin, if_pos ⟨by omega, by omega, by omega⟩]
    congr 1
    omega
  · simp [copySection]

/-- Witness for C7 at a concrete buffer with the source window at 0 and
the target window at 6628. -/
theorem c7_copy_section_witness :
    (0 + 6628 ≤ wideBuf.size ∧ 6628 + 6628 ≤ wideBuf.size) ∧
    ((∀ i, i < 6628 → i ≠ 1240 →
      (copySection wideBuf 0 6628).byte (6628 + i) = wideBuf.byte (0 + i)) ∧
    (copySection wideBuf 0 6628).byte (6628 + 1240) = wideBuf.byte (6628 + 1240)) :=
  ⟨⟨by decide, by decide⟩, c7_copy_section wideBuf 0 6628 (by decide) (by decide)⟩

/-- C8: for every blob and in-bounds target window at `T`,
`perform_settings_reset` zeroes every byte of the window except the
mode-id byte (relative 1240) and the three file-prefix bytes (relative
1540..1542), preserves the mode-id byte, and afterwards the decoded file
prefix is the string DSC. -/
theorem c8_reset_section (b : Blob) (T : Nat) (hT : T + 6628 ≤ b.size) :
    (∀ i, i < 6628 → i ≠ 1240 → ¬ (1540 ≤ i ∧ i < 1543) →
      (resetSection b T).byte (T + i) = 0) ∧
    (resetSection b T).byte (T + 1240) = b.byte (T + 1240) ∧
    decodePrefixField (resetSection b T) T = some "DSC" := by
  refine ⟨?_, ?_, ?_⟩
  · intro i hi h1240 hpre
    simp only [resetSection]
    rw [if_neg (by omega), if_neg (by omega), if_neg (by omega), if_neg (by omega),
      if_pos ⟨by omega, by omega, by omega⟩]
  · simp [resetSection]
  · have e0 : (resetSection b T).byte (T + 1540 + 0) = 68 := by
      have h1 : ¬ (T + 1540 + 0 = T + 1240) := by omega
      simp only [resetSection]
      rw [if_pos (⟨trivial, by omega⟩ : True ∧ T + 1540 + 0 < b.size), if_neg h1]
    have e1 : (resetSection b T).byte (T + 1540 + 1) = 83 := by
      have h1 : ¬ (T + 1540 + 1 = T + 1240) := by omega
      have h2 : ¬ (T + 1540 + 1 = T + 1540 ∧ T + 1540 + 1 < b.size) := by omega
      simp only [resetSection]
      rw [if_pos (⟨trivial, by omega⟩ : True ∧ T + 1540 + 1 < b.size), if_neg h1, if_neg h2]
    have e2 : (resetSection b T).byte (T + 1540 + 2) = 67 := by
      have h1 : ¬ (T + 1540 + 2 = T + 1240) := by omega
      have h2 : ¬ (T + 1540 + 2 = T + 1540 ∧ T + 1540 + 2 < b.size) := by omega
      have h3 : ¬ (T + 1540 + 2 = T + 1541 ∧ T + 1540 + 2 < b.size) := by omega
      simp only [resetSection]
      rw [if_pos (⟨trivial, by omega⟩ : True ∧ T + 1540 + 2 < b.size), if_neg h1, if_neg h2,
        if_neg h3]
    have ez : ∀ k, 3 ≤ k → k < 10 → (resetSection b T).byte (T + 1540 + k) = 0 := by
      intro k hk3 hk10
      have h1 : ¬ (T + 1540 + k = T + 1240) := by omega
      have h2 : ¬ (T + 1540 + k = T + 1540 ∧ T + 1540 + k < b.size) := by omega
      have h3 : ¬ (T + 1540 + k = T + 1541 ∧ T + 1540 + k < b.size) := by omega
      have h4 : ¬ (T + 1540 + k = T + 1542 ∧ T + 1540 + k < b.size) := by omega
      have h5 : T ≤ T + 1540 + k ∧ T + 1540 + k < T + 6628 ∧ T + 1540 + k < b.size :=
        ⟨by omega, by omega, by omega⟩
      simp only [resetSection]
      rw [if_neg h1, if_neg h2, if_neg h3, if_neg h4, if_pos h5]
    have hr : List.range 10 = [0, 1, 2, 3, 4, 5, 6, 7, 8, 9] := rfl
    simp only [decodePrefixField]
    rw [if_pos (show T + 1540 + 10 < (resetSection b T).size by
      show T + 1540 + 10 < b.size
      omega)]
    rw [hr]
    simp only [List.map_cons, List.map_nil]
    rw [e0, e1, e2, ez 3 (by omega) (by omega), ez 4 (by omega) (by omega),
      ez 5 (by omega) (by omega), ez 6 (by omega) (by omega), ez 7 (by omega) (by omega),
      ez 8 (by omega) (by omega), ez 9 (by omega) (by omega)]
    decide

/-- Witness for C8 at a concrete buffer with the target window at 0. -/
theorem c8_reset_section_witness :
    (0 + 6628 ≤ wideBuf.size) ∧
    ((∀ i, i < 6628 → i ≠ 1240 → ¬ (1540 ≤ i ∧ i < 1543) →
      (resetSection wideBuf 0).byte (0 + i) = 0) ∧
    (resetSection wideBuf 0).byte (0 + 1240) = wideBuf.byte (0 + 1240) ∧
    decodePrefixField (resetSection wideBuf 0) 0 = some "DSC") :=
  ⟨by decide, c8_reset_section wideBuf 0 (by decide)⟩

/-- C10: `perform_settings_copy` and `perform_settings_reset` touch no
byte outside the target window `[T, T+6628)`; when the source and target
windows are disjoint, the whole source window is unchanged by the copy. -/
theorem c10_mutators_frame (b : Blob) (S T : Nat) (_hT : T + 6628 ≤ b.size) :
    (∀ j, j < T ∨ T + 6628 ≤ j →
      (copySection b S T).byte j = b.byte j ∧
      (resetSection b T).byte j = b.byte j) ∧
    ((S + 6628 ≤ T ∨ T + 6628 ≤ S) →
      ∀ i, i < 6628 → (copySection b S T).byte (S + i) = b.byte (S + i)) := by
  have hmin : min 6628 (b.size - S) ≤ 6628 := Nat.min_le_left _ _
  constructor
  · intro j hj
    constructor
    · simp only [copySection]
      rw [if_neg (by omega), if_neg (by omega)]
    · simp only [resetSection]
      rw [if_neg (by omega), if_neg (by omega), if_neg (by omega), if_neg (by omega),
        if_neg (by omega)]
  · intro hdisj i hi
    simp only [copySection]
    rw [if_neg (by omega), if_neg (by omega)]

/-- Witness for C10 at a concrete buffer with disjoint windows at 0 and
6628. -/
theorem c10_mutators_frame_witness :
    (6628 + 6628 ≤ wideBuf.size) ∧
    ((∀ j, j < 6628 ∨ 6628 + 6628 ≤ j →
      (copySection wideBuf 0 6628).byte j = wideBuf.byte j ∧
      (resetSection wideBuf 6628).byte j = wideBuf.byte j) ∧
    ((0 + 6628 ≤ 6628 ∨ 6628 + 6628 ≤ 0) →
      ∀ i, i < 6628 →
        (copySection wideBuf 0 6628).byte (0 + i) = wideBuf.byte (0 + i))) :=
  ⟨by decide, c10_mutators_frame wideBuf 0 6628 (by decide)⟩

/-- C9, counterexample to the claim as stated: the i-menu writer of the
source (`apply_imenu_changes`) does not zero the three padding bytes of
a slot field.  Writing setting id 7 to all slots of a buffer whose
slot-0 padding byte (index 925) holds 5 leaves that padding byte 5, not
0, while the slot-0 low byte (index 924) does receive the id. -/
theorem c9_counterexample :
    (applyImenuChanges padBuf 0 (fun _ => 7)).byte 924 = 7 ∧
    (applyImenuChanges padBuf 0 (fun _ => 7)).byte 925 = 5 ∧
    ¬ (applyImenuChanges padBuf 0 (fun _ => 7)).byte 925 = 0 := by
  refine ⟨?_, ?_, ?_⟩ <;> decide

/-- C9 as amended: the i-menu writer stores each chosen setting id in
the low byte of its slot's 4-byte field (slots 0..11, guarded by the
buffer length), leaves the three padding bytes of every slot field
unchanged, and writes nothing outside the 48-byte slot table, so no
write to a slot outside 0..11 can occur (the source has no per-slot
entry point and no `InvalidSlot` signal). -/
theorem c9_imenu_write (b : Blob) (off : Nat) (vals : Nat → Nat) (i : Nat)
    (hi : i < 12) :
    (off + 924 + 4 * i < b.size →
      (applyImenuChanges b off vals).byte (off + 924 + 4 * i) = vals i) ∧
    (∀ k, 1 ≤ k → k ≤ 3 →
      (applyImenuChanges b off vals).byte (off + 924 + 4 * i + k) =
        b.byte (off + 924 + 4 * i + k)) ∧
    (∀ j, j < off + 924 ∨ off + 972 ≤ j →
      (applyImenuChanges b off vals).byte j = b.byte j) := by
  refine ⟨?_, ?_, ?_⟩
  · intro hlt
    simp only [applyImenuChanges]
    rw [if_pos ⟨hlt, by omega, by omega, by omega⟩]
    congr 1
    omega
  · intro k hk1 hk3
    simp only [applyImenuChanges]
    rw [if_neg (by omega)]
  · intro j hj
    simp only [applyImenuChanges]
    rw [if_neg (by omega)]

/-- Witness for the amended C9 at slot 0 of the padding counterexample
buffer. -/
theorem c9_imenu_write_witness :
    (0 < 12) ∧
    ((0 + 924 + 4 * 0 < padBuf.size →
      (applyImenuChanges padBuf 0 (fun _ => 7)).byte (0 + 924 + 4 * 0) = 7) ∧
    (∀ k, 1 ≤ k → k ≤ 3 →
      (applyImenuChanges padBuf 0 (fun _ => 7)).byte (0 + 924 + 4 * 0 + k) =
        padBuf.byte (0 + 924 + 4 * 0 + k)) ∧
    (∀ j, j < 0 + 924 ∨ 0 + 972 ≤ j →
      (applyImenuChanges padBuf 0 (fun _ => 7)).byte j = padBuf.byte j)) :=
  ⟨by decide, c9_imenu_write padBuf 0 (fun _ => 7) 0 (by decide)⟩

/-- C2, counterexample to the claim as stated: on the empty byte
sequence, `update_crc` does nothing (its `len >= 2` guard fails) and
verification reports false, so the round trip does not hold for every
byte sequence. -/
theorem c2_counterexample : verifyCrc (updateCrc emptyBuf) = false := by decide

/-- C2 as amended: for every buffer of length at least 2, finalizing
(recomputing the CRC-16/XMODEM over all but the last two bytes and
storing it big-endian in the last two bytes) yields a buffer that
`verify_crc` accepts; and for every buffer of length below 2, `verify`
returns false (and, being total, never throws). -/
theorem c2_crc_round_trip (b : Blob) :
    (2 ≤ b.size → verifyCrc (updateCrc b) = true) ∧
    (b.size < 2 → verifyCrc b = false) := by
  constructor
  · exact fun h => verifyCrc_updateCrc b h
  · intro h
    simp only [verifyCrc]
    rw [if_pos h]

/-- Witness for the amended C2 on a concrete 4-byte buffer. -/
theorem c2_crc_round_trip_witness :
    (2 ≤ tinyBuf.size) ∧ verifyCrc (updateCrc tinyBuf) = true :=
  ⟨by decide, (c2_crc_round_trip tinyBuf).1 (by decide)⟩

/-- C6: the plausibility check is false whenever the 6628-byte window
overruns the buffer, and otherwise holds exactly when the fraction of
non-zero bytes in the window is at least 1/100; a window with 67
non-zero bytes (the least count reaching 1%) passes and a window with 33
non-zero bytes (0.5% of 6628, rounded down) fails. -/
theorem c6_validator (b : Blob) (start : Nat) :
    (b.size < start + 6628 → isValidConfigSection b start = false) ∧
    (start + 6628 ≤ b.size →
      (isValidConfigSection b start = true ↔
        (1 / 100 : ℚ) ≤ (countNonzero b start 6628 : ℚ) / 6628)) ∧
    isValidConfigSection denseBuf 0 = true ∧
    isValidConfigSection sparseBuf 0 = false := by
  refine ⟨?_, ?_, ?_, ?_⟩
  · intro h
    simp only [isValidConfigSection]
    rw [if_pos h]
  · intro h
    simp only [isValidConfigSection]
    rw [if_neg (by omega), decide_eq_true_eq,
      div_le_div_iff₀ (by norm_num : (0:ℚ) < 100) (by norm_num : (0:ℚ) < 6628)]
    constructor
    · intro h2
      have h3 : (6628 : ℚ) ≤ 100 * (countNonzero b start 6628 : ℚ) := by exact_mod_cast h2
      linarith
    · intro h2
      have h3 : (6628 : ℚ) ≤ 100 * (countNonzero b start 6628 : ℚ) := by linarith
      exact_mod_cast h3
  · simp only [isValidConfigSection]
    rw [if_neg (by decide), denseBuf_count]
    decide
  · simp only [isValidConfigSection]
    rw [if_neg (by decide), sparseBuf_count]
    decide

/-- Witness for C6 on the 67-non-zero-byte window. -/
theorem c6_validator_witness :
    (0 + 6628 ≤ denseBuf.size) ∧
    (isValidConfigSection denseBuf 0 = true ↔
      (1 / 100 : ℚ) ≤ (countNonzero denseBuf 0 6628 : ℚ) / 6628) :=
  ⟨by decide, (c6_validator denseBuf 0).2.1 (by decide)⟩

/-- C3: an offset of the known-offset tables is kept by the probe
exactly when its window passes `is_valid_config_section` and, where an
expected logical mode is recorded for the slot, the mode-id byte at
`offset + 1240` is among the accepted ids.  No slot of the source's
tables records an expected mode (the probe never compares the mode-id
byte), so the second condition is vacuously satisfied. -/
theorem c3_known_offset_probe (b : Blob) (table : List (Nat × String))
    (_htable : table = standardSectionsMk2 ∨ table = standardSectionsMk1)
    (off : Nat) (nm : String) (hmem : (off, nm) ∈ table) :
    off ∈ keptOffsets b table ↔
      (isValidConfigSection b off = true ∧
        ∀ ms, expectedModeIds nm = some ms → b.byte (off + 1240) ∈ ms) := by
  constructor
  · intro hk
    obtain ⟨hmemmap, hval⟩ := List.mem_filter.mp hk
    refine ⟨hval, fun ms hms => ?_⟩
    simp only [expectedModeIds] at hms
    cases hms
  · rintro ⟨hval, _⟩
    exact List.mem_filter.mpr ⟨List.mem_map.mpr ⟨(off, nm), hmem, rfl⟩, hval⟩

/-- Witness for C3 at the first Mark 2 table entry, on the dense
scenario buffer. -/
theorem c3_known_offset_probe_witness :
    (standardSectionsMk2 = standardSectionsMk2 ∨
      standardSectionsMk2 = standardSectionsMk1) ∧
    ((250612, "M/A/S/P Settings (Main)") ∈ standardSectionsMk2) ∧
    (250612 ∈ keptOffsets scenarioBufDense standardSectionsMk2 ↔
      (isValidConfigSection scenarioBufDense 250612 = true ∧
        ∀ ms, expectedModeIds "M/A/S/P Settings (Main)" = some ms →
          scenarioBufDense.byte (250612 + 1240) ∈ ms)) :=
  ⟨Or.inl rfl, by decide,
    c3_known_offset_probe scenarioBufDense standardSectionsMk2 (Or.inl rfl)
      250612 "M/A/S/P Settings (Main)" (by decide)⟩

/-- C4: for every blob and every scanned mode id `m`, the heuristic scan
records as candidates exactly the in-range positions holding byte `m`,
shifted back by 1240, whose window is plausible; it reports nothing when
no candidate exists, and otherwise reports exactly one section: a
recorded candidate whose score (density times 50 plus 5 per valid i-menu
entry) is maximal among all recorded candidates. -/
theorem c4_heuristic_scan (b : Blob) (m : Nat) (_hm : m ∈ autoModePatterns) :
    (∀ s, s ∈ candidateStarts b m ↔
      ∃ p, p < b.size ∧ b.byte p = m ∧ 1240 ≤ p ∧ s = p - 1240 ∧
        isValidConfigSection b (p - 1240) = true) ∧
    (candidateStarts b m = [] → bestCandidate b m = none) ∧
    (candidateStarts b m ≠ [] → ∃ s, bestCandidate b m = some s) ∧
    (∀ s, bestCandidate b m = some s →
      s ∈ candidateStarts b m ∧
      ∀ t ∈ candidateStarts b m,
        scoreConfigSection b t ≤ scoreConfigSection b s) ∧
    (∀ s, isValidConfigSection b s = true →
      scoreConfigSection b s =
        (countNonzero b s 6628 : ℚ) / 6628 * 50 + (validImenuEntries b s : ℚ) * 5) := by
  refine ⟨fun s => mem_candidateStarts b m s, ?_, ?_, ?_, ?_⟩
  · intro h
    rw [bestCandidate, h]
  · intro h
    rcases hc : candidateStarts b m with _ | ⟨c, cs⟩
    · exact absurd hc h
    · exact ⟨cs.foldl (pickBetter b) c, by rw [bestCandidate, hc]⟩
  · intro s hs
    exact ⟨bestCandidate_mem b m s hs, bestCandidate_max b m s hs⟩
  · intro s hvalid
    simp only [scoreConfigSection]
    rw [if_pos hvalid]

/-- Witness for C4 at mode id 29 on the twin-section buffer. -/
theorem c4_heuristic_scan_witness :
    (29 ∈ autoModePatterns) ∧
    ((∀ s, s ∈ candidateStarts twinBuf 29 ↔
      ∃ p, p < twinBuf.size ∧ twinBuf.byte p = 29 ∧ 1240 ≤ p ∧ s = p - 1240 ∧
        isValidConfigSection twinBuf (p - 1240) = true) ∧
    (candidateStarts twinBuf 29 = [] → bestCandidate twinBuf 29 = none) ∧
    (candidateStarts twinBuf 29 ≠ [] → ∃ s, bestCandidate twinBuf 29 = some s) ∧
    (∀ s, bestCandidate twinBuf 29 = some s →
      s ∈ candidateStarts twinBuf 29 ∧
      ∀ t ∈ candidateStarts twinBuf 29,
        scoreConfigSection twinBuf t ≤ scoreConfigSection twinBuf s) ∧
    (∀ s, isValidConfigSection twinBuf s = true →
      scoreConfigSection twinBuf s =
        (countNonzero twinBuf s 6628 : ℚ) / 6628 * 50 +
          (validImenuEntries twinBuf s : ℚ) * 5)) :=
  ⟨by decide, c4_heuristic_scan twinBuf 29 (by decide)⟩

/-- C5, counterexample to the claim as stated: on the twin-section
buffer the editor's heuristic scan (`auto_detect_sections`) reports a
section for mode id 29 at start 0 and a section for mode id 30 at start
1; both remain in its result set even though the two starts are 1 byte
apart, so candidates of different mode ids within 100 bytes are not
collapsed there. -/
theorem c5_counterexample :
    autoDetectStarts twinBuf = [0, 1] ∧ Nat.dist 0 1 < 100 :=
  ⟨twinBuf_autoDetect, by decide⟩

/-- C5 as amended: the 100-byte proximity dedup lives in
`auto_detect_dump_file` (`auto_detect_dump.py`), not in the editor's
scan: there, any two recorded section starts are at least 100 bytes
apart, and a candidate lying within 100 bytes of an already-recorded
section is skipped, which keeps the first-discovered candidate. -/
theorem c5_dump_scan_dedup (b : Blob) :
    (autoDetectDumpSections b).Pairwise (fun s t => 100 ≤ Nat.dist s t) ∧
    (∀ m acc p, b.byte p = m → 1240 ≤ p →
      farFromAll acc (p - 1240) = false → dumpStep b m acc p = acc) := by
  constructor
  · exact autoDetectDumpSections_pairwise b
  · intro m acc p h1 h2
    rw [dumpStep, if_pos ⟨h1, h2⟩]
    generalize p - 1240 = s0
    intro hfar
    rw [if_neg (by rw [hfar, Bool.false_and]; exact Bool.false_ne_true)]

/-- Witness for the amended C5 on the twin-section buffer: the dump scan
result is 100-byte separated, and a position implying start 1 is skipped
when start 0 is already recorded. -/
theorem c5_dump_scan_dedup_witness :
    ((autoDetectDumpSections twinBuf).Pairwise (fun s t => 100 ≤ Nat.dist s t)) ∧
    (twinBuf.byte 1241 = 30 ∧ 1240 ≤ 1241 ∧
      farFromAll [0] (1241 - 1240) = false ∧
      dumpStep twinBuf 30 [0] 1241 = [0]) :=
  ⟨(c5_dump_scan_dedup twinBuf).1, by decide, by decide, by decide,
    (c5_dump_scan_dedup twinBuf).2 30 [0] 1241 (by decide) (by decide) (by decide)⟩

/-- C1, counterexample to the claim as stated: the buffer built exactly
as the end-to-end scenario prescribes carries only 6 non-zero bytes in
its 6628-byte section window (density about 0.09%, below the 1%
threshold), so the known-offset probe rejects offset 250612: the window
is not plausible, its quality score is 0 (not positive), and the probe
keeps no offset of the Mark 2 table. -/
theorem c1_counterexample :
    isValidConfigSection scenarioBuf 250612 = false ∧
    scoreConfigSection scenarioBuf 250612 = 0 ∧
    keptOffsets scenarioBuf standardSectionsMk2 = [] :=
  ⟨scenarioBuf_valid_probe, scenarioBuf_score, scenarioBuf_kept_none⟩

/-- C1 as amended: with the scenario buffer additionally given 67 filler
bytes of value 1 inside the section window (1% density reached), the
locator keeps exactly offset 250612 and its score is positive; the codec
reads mode id 32 there (the table names it Manual), i-menu slot 0 holds
31 (Set Picture Control) and slot 1 holds 21 (Image Quality), the
decoded file prefix is DSC, and finalize followed by verify succeeds. -/
theorem c1_scenario :
    locateSections scenarioBufDense = [250612] ∧
    0 < scoreConfigSection scenarioBufDense 250612 ∧
    decodeModeId scenarioBufDense 250612 = some 32 ∧
    modeNames.lookup 32 = some "Manual (M)" ∧
    decodeImenuSlot scenarioBufDense 250612 0 = some 31 ∧
    imenuNames.lookup 31 = some "Set Picture Control" ∧
    decodeImenuSlot scenarioBufDense 250612 1 = some 21 ∧
    imenuNames.lookup 21 = some "Image Quality" ∧
    decodePrefixField scenarioBufDense 250612 = some "DSC" ∧
    verifyCrc (updateCrc scenarioBufDense) = true := by
  refine ⟨?_, ?_, ?_, ?_, ?_, ?_, ?_, ?_, ?_, ?_⟩
  · rw [locateSections, if_pos (by rw [scenarioBufDense_kept]; exact (by decide)),
      scenarioBufDense_kept]
  · simp only [scoreConfigSection, scenarioBufDense_valid]
    rw [if_pos trivial, scenarioBufDense_count]
    positivity
  · decide
  · decide
  · decide
  · decide
  · decide
  · decide
  · decide
  · exact verifyCrc_updateCrc scenarioBufDense (by decide)

end NZTools
